import Mathlib

/-!
Verification of the Postgres `COPY FROM STDIN` writer
(`src/postgres_copy_to.cpp` of the dws_scanner repository).

Shallow embedding conventions:
* C++ `std::string` text is modelled as `List Char` (byte strings; all data in
  this unit is ASCII-ranged).
* DuckDB `Vector` columns are modelled as lists of per-row values; a flat
  column of nullable values is a `List (Option _)`; nested values are given by
  the inductive `PGVal` below, with `PGVal.null` for a null entry, so that a
  column is a `List PGVal`.
* libpq calls are modelled by explicit traces/oracles: `PQputCopyData` by the
  list of result codes its successive invocations return, `PQputCopyEnd` and
  `PQgetResult` by their single outcome.
* C++ exceptions are modelled with `Except String`.
-/

namespace DwsScanner

/-- Model of C `isspace` in the default locale, restricted to the ASCII
whitespace characters: space, tab, newline, vertical tab, form feed,
carriage return. -/
def isspace (c : Char) : Bool :=
  c = ' ' || c = '\t' || c = '\n' || c = Char.ofNat 11 || c = Char.ofNat 12 || c = '\r'

/-- The characters of the `switch` in `NeedsQuotes`
(src/postgres_copy_to.cpp:128-135): list/struct metacharacters. -/
def isQuoteChar (c : Char) : Bool :=
  c = '"' || c = '\\' || c = '{' || c = '}' || c = '(' || c = ')' || c = ','

/-- `NeedsQuotes` (src/postgres_copy_to.cpp:113-140): true when the string is
empty, starts or ends with whitespace, or contains a metacharacter. -/
def NeedsQuotes : List Char → Bool
  | [] => true
  | c :: rest =>
    isspace c || isspace (List.getLastD rest c) || List.any (c :: rest) isQuoteChar

/-- `EscapeQuotes` (src/postgres_copy_to.cpp:142-152): prefix every `"` and
`\` with a backslash; all other characters pass through. The C++ version
appends to an out-parameter `result`; the model returns the appended text. -/
def EscapeQuotes : List Char → List Char
  | [] => []
  | c :: rest =>
    (if c = '"' || c = '\\' then ['\\', c] else [c]) ++ EscapeQuotes rest

/-- `QuoteAndEscapeIfNeeded` (src/postgres_copy_to.cpp:154-163): quote (and
escape) the string iff `NeedsQuotes` holds. The C++ version appends to an
out-parameter `result`; the model returns the appended text. -/
def QuoteAndEscapeIfNeeded (toQuote : List Char) : List Char :=
  if !NeedsQuotes toQuote then
    toQuote
  else
    '"' :: (EscapeQuotes toQuote ++ ['"'])

/-- Reading direction of the quoting grammar: undo the backslash prefixes
introduced by `EscapeQuotes` (a backslash takes the following character
verbatim). -/
def unescapeQuotes : List Char → List Char
  | [] => []
  | [c] => [c]
  | c :: c2 :: rest =>
    if c = '\\' then c2 :: unescapeQuotes rest
    else c :: unescapeQuotes (c2 :: rest)

/-- Parse a field per the quoting grammar: a field starting with `"` is a
quoted field (strip the outer quotes, undo the escapes); anything else is
taken verbatim. -/
def parseQuotedField (s : List Char) : List Char :=
  match s with
  | '"' :: rest => unescapeQuotes rest.dropLast
  | _ => s

lemma escapeQuotes_ne_nil (c : Char) (rest : List Char) :
    EscapeQuotes (c :: rest) ≠ [] := by
  unfold EscapeQuotes
  by_cases h : c = '"' || c = '\\' <;> simp [h]

lemma unescapeQuotes_cons_cons (a b : Char) (l : List Char) :
    unescapeQuotes (a :: b :: l) =
      if a = '\\' then b :: unescapeQuotes l else a :: unescapeQuotes (b :: l) :=
  rfl

lemma unescapeQuotes_escapeQuotes (v : List Char) :
    unescapeQuotes (EscapeQuotes v) = v := by
  induction v with
  | nil => simp [EscapeQuotes, unescapeQuotes]
  | cons c rest ih =>
    by_cases h : c = '"' || c = '\\'
    · have he : EscapeQuotes (c :: rest) = '\\' :: c :: EscapeQuotes rest := by
        simp [EscapeQuotes, h]
      rw [he, unescapeQuotes_cons_cons, if_pos rfl, ih]
    · have hc : ¬ c = '\\' := by
        intro hcc
        simp [hcc] at h
      have he : EscapeQuotes (c :: rest) = c :: EscapeQuotes rest := by
        simp [EscapeQuotes, h]
      rw [he]
      cases hrest : EscapeQuotes rest with
      | nil =>
        cases rest with
        | nil => simp [unescapeQuotes]
        | cons d tl => exact absurd hrest (escapeQuotes_ne_nil d tl)
      | cons d tl =>
        rw [unescapeQuotes_cons_cons, if_neg hc, ← hrest, ih]

lemma needsQuotes_false_head_ne_quote (v : List Char) (h : NeedsQuotes v = false) :
    ∀ rest, v ≠ '"' :: rest := by
  intro rest hv
  subst hv
  simp [NeedsQuotes, isQuoteChar] at h

/-- Claim C3: `QuoteAndEscapeIfNeeded` is a lossless encoding: it returns the
input unchanged when `NeedsQuotes` is false, otherwise it wraps the
`EscapeQuotes`-escaped text (every `"` and `\` prefixed by a backslash, all
other bytes unchanged) in a pair of double quotes; and parsing the output
back per the quoting grammar (strip the outer quotes, undo the backslash
prefixes) yields the input exactly. -/
theorem quoteAndEscapeIfNeeded_lossless (v : List Char) :
    QuoteAndEscapeIfNeeded v =
      (if NeedsQuotes v then '"' :: (EscapeQuotes v ++ ['"']) else v) ∧
    parseQuotedField (QuoteAndEscapeIfNeeded v) = v := by
  constructor
  · unfold QuoteAndEscapeIfNeeded
    by_cases h : NeedsQuotes v <;> simp [h]
  · unfold QuoteAndEscapeIfNeeded
    by_cases h : NeedsQuotes v
    · simp only [h, Bool.not_true, Bool.false_eq_true, if_neg, not_false_iff]
      show parseQuotedField ('"' :: (EscapeQuotes v ++ ['"'])) = v
      simp only [parseQuotedField, List.dropLast_concat]
      exact unescapeQuotes_escapeQuotes v
    · have hb : NeedsQuotes v = false := by simpa using h
      simp only [hb, Bool.not_false, if_pos]
      cases v with
      | nil => simp [NeedsQuotes] at hb
      | cons c rest =>
        have hc : ¬ c = '"' := by
          intro hcc
          exact needsQuotes_false_head_ne_quote _ hb rest (by rw [hcc])
        unfold parseQuotedField
        split
        · rename_i heq
          injection heq with h1 h2
          exact absurd h1 hc
        · rfl

/-- Claim C4: `NeedsQuotes` returns true iff the text is empty, or its first
or last character is whitespace, or it contains one of `"` `\` `{` `}` `(`
`)` `,`; together with the five concrete examples from the spec. -/
theorem needsQuotes_iff (s : List Char) :
    (NeedsQuotes s = true ↔
      s = [] ∨ isspace (s.headD 'A') = true ∨ isspace (s.getLastD 'A') = true ∨
        (∃ c ∈ s, isQuoteChar c = true)) ∧
    NeedsQuotes [] = true ∧
    NeedsQuotes [' ', 'a'] = true ∧
    NeedsQuotes ['a', ' '] = true ∧
    NeedsQuotes ['a', 'b', 'c'] = false ∧
    NeedsQuotes ['a', ',', 'b'] = true := by
  refine ⟨?_, by decide, by decide, by decide, by decide, by decide⟩
  cases s with
  | nil => simp [NeedsQuotes]
  | cons c rest =>
    cases rest with
    | nil => simp [NeedsQuotes]
    | cons d tl =>
      simp [NeedsQuotes, List.any_eq_true, List.getLast?_cons_cons]
      tauto

/-! ### Nested-type text caster (src/postgres_copy_to.cpp:165-278) -/

/-- The logical type categories the dispatch in `CastToPostgresVarchar`
(src/postgres_copy_to.cpp:263-278) distinguishes: `LIST`, `STRUCT`, `BLOB`,
and the default case (any other type, cast by the external generic
`VectorOperations::Cast`). -/
inductive PGType where
  | prim : PGType
  | blob : PGType
  | list : PGType → PGType
  | strct : List PGType → PGType

/-- `GetType().id() == LogicalTypeId::LIST` (src/postgres_copy_to.cpp:171). -/
def PGType.isList : PGType → Bool
  | PGType.list _ => true
  | _ => false

/-- A value of a column row. `null` models an entry whose validity bit is
unset (`FlatVector::IsNull`). A `prim` value carries the text the external
generic cast produces for it (that cast is out of scope, assumed correct);
a `blob` carries its bytes; `list`/`strct` carry their per-row children. -/
inductive PGVal where
  | null : PGVal
  | prim : List Char → PGVal
  | blob : List Nat → PGVal
  | list : List PGVal → PGVal
  | strct : List PGVal → PGVal

/-- The hex alphabet `HEX_STRING` of `CastBlobToPostgres`
(src/postgres_copy_to.cpp:251). -/
def HEX_STRING : List Char := "0123456789ABCDEF".data

/-- The byte loop of `CastBlobToPostgres` (src/postgres_copy_to.cpp:255-258):
`HEX_STRING[b / 16]` then `HEX_STRING[b % 16]` for each byte in order. -/
def blobText : List Nat → List Char
  | [] => []
  | b :: rest => HEX_STRING.getD (b / 16) 'X' :: HEX_STRING.getD (b % 16) 'X' :: blobText rest

mutual

/-- Per-row value cast: the row-level body of `CastToPostgresVarchar`'s
dispatch (src/postgres_copy_to.cpp:263-278) for one non-null row. The C++
code casts whole columns; since every per-row output depends only on that
row's value, the column casts below are maps of this function. A `prim`
value casts to the text the external conversion produced for it. The
catch-all returns `[]`; it is unreachable for well-typed columns. -/
def castSingle : PGType → PGVal → List Char
  | PGType.prim, PGVal.prim s => s
  | PGType.blob, PGVal.blob bs => '\\' :: 'x' :: blobText bs
  | PGType.list cty, PGVal.list es => '{' :: (listElems cty es true ++ ['}'])
  | PGType.strct ctys, PGVal.strct fs => '(' :: (structFields ctys fs true ++ [')'])
  | _, _ => []
termination_by _ v => (sizeOf v, 0)

/-- The element loop of `CastListToPostgresArray`
(src/postgres_copy_to.cpp:187-202): `first` is true for `list_idx = 0`
(no leading comma). -/
def listElems (cty : PGType) : List PGVal → Bool → List Char
  | [], _ => []
  | e :: rest, first =>
    (if first then [] else [',']) ++ (listElem cty e ++ listElems cty rest false)
termination_by es _ => (sizeOf es, 2)

/-- One array element (src/postgres_copy_to.cpp:192-201): a null child emits
the token `NULL`; otherwise the recursively cast text, inserted verbatim
when the child type is itself a list (`skip_quoting`), else passed through
`QuoteAndEscapeIfNeeded`. -/
def listElem (cty : PGType) : PGVal → List Char
  | PGVal.null => ['N', 'U', 'L', 'L']
  | e =>
    if cty.isList then castSingle cty e else QuoteAndEscapeIfNeeded (castSingle cty e)
termination_by e => (sizeOf e, 1)

/-- The field loop of `CastStructToPostgres`
(src/postgres_copy_to.cpp:227-237): `first` is true for `c = 0`. The child
types and child values walk in lockstep (one casted child vector per
field). -/
def structFields : List PGType → List PGVal → Bool → List Char
  | cty :: ctys, f :: fs, first =>
    (if first then [] else [',']) ++ (structField cty f ++ structFields ctys fs false)
  | _, _, _ => []
termination_by _ fs _ => (sizeOf fs, 2)

/-- One composite field (src/postgres_copy_to.cpp:231-236): a null field
contributes the empty segment; a non-null field is always passed through
`QuoteAndEscapeIfNeeded`. -/
def structField (cty : PGType) : PGVal → List Char
  | PGVal.null => []
  | f => QuoteAndEscapeIfNeeded (castSingle cty f)
termination_by f => (sizeOf f, 1)

end

/-- `CastListToPostgresArray` (src/postgres_copy_to.cpp:167-206) at column
level: a null row propagates to a null output row, a non-null row produces
its array literal. -/
def CastListToPostgresArray (cty : PGType) (col : List PGVal) : List (Option (List Char)) :=
  col.map fun v =>
    match v with
    | PGVal.null => none
    | v => some (castSingle (PGType.list cty) v)

/-- `CastStructToPostgres` (src/postgres_copy_to.cpp:208-241) at column
level. -/
def CastStructToPostgres (ctys : List PGType) (col : List PGVal) : List (Option (List Char)) :=
  col.map fun v =>
    match v with
    | PGVal.null => none
    | v => some (castSingle (PGType.strct ctys) v)

/-- `CastBlobToPostgres` (src/postgres_copy_to.cpp:243-261) at column
level. -/
def CastBlobToPostgres (col : List PGVal) : List (Option (List Char)) :=
  col.map fun v =>
    match v with
    | PGVal.null => none
    | v => some (castSingle PGType.blob v)

/-- `CastToPostgresVarchar` (src/postgres_copy_to.cpp:263-278): dispatch on
the column's logical type. -/
def CastToPostgresVarchar (ty : PGType) (col : List PGVal) : List (Option (List Char)) :=
  match ty with
  | PGType.list cty => CastListToPostgresArray cty col
  | PGType.strct ctys => CastStructToPostgres ctys col
  | PGType.blob => CastBlobToPostgres col
  | PGType.prim =>
    col.map fun v =>
      match v with
      | PGVal.null => none
      | v => some (castSingle PGType.prim v)

/-! ### Spec-side literal shapes -/

/-- Spec-side join: pieces joined by a single comma. -/
def joinComma : List (List Char) → List Char
  | [] => []
  | [x] => x
  | x :: y :: xs => x ++ (',' :: joinComma (y :: xs))

/-- Spec-side array literal: `{` + elements joined by `,` + `}`. -/
def specArrayLiteral (cty : PGType) (es : List PGVal) : List Char :=
  '{' :: (joinComma (es.map (listElem cty)) ++ ['}'])

/-- Spec-side composite literal: `(` + fields joined by `,` + `)`. -/
def specCompositeLiteral (ctys : List PGType) (fs : List PGVal) : List Char :=
  '(' :: (joinComma (List.zipWith structField ctys fs) ++ [')'])

/-- Embed a nullable list row into `PGVal`. -/
def listColRow : Option (List PGVal) → PGVal
  | none => PGVal.null
  | some es => PGVal.list es

/-- Embed a nullable struct row into `PGVal`. -/
def structColRow : Option (List PGVal) → PGVal
  | none => PGVal.null
  | some fs => PGVal.strct fs

/-- Embed a nullable blob row into `PGVal`. -/
def blobColRow : Option (List Nat) → PGVal
  | none => PGVal.null
  | some bs => PGVal.blob bs

lemma joinComma_cons_listElems (cty : PGType) (es : List PGVal) (x : List Char) :
    joinComma (x :: es.map (listElem cty)) = x ++ listElems cty es false := by
  induction es generalizing x with
  | nil => simp [joinComma, listElems]
  | cons e rest ih =>
    simp only [List.map_cons, joinComma]
    rw [ih (listElem cty e)]
    simp [listElems]

lemma listElems_true_eq_joinComma (cty : PGType) (es : List PGVal) :
    listElems cty es true = joinComma (es.map (listElem cty)) := by
  cases es with
  | nil => simp [joinComma, listElems]
  | cons e rest =>
    rw [List.map_cons, joinComma_cons_listElems]
    simp [listElems]

lemma castSingle_list_eq (cty : PGType) (es : List PGVal) :
    castSingle (PGType.list cty) (PGVal.list es) = specArrayLiteral cty es := by
  simp [castSingle, specArrayLiteral, listElems_true_eq_joinComma]

lemma joinComma_cons_structFields (ctys : List PGType) (fs : List PGVal) (x : List Char) :
    joinComma (x :: List.zipWith structField ctys fs) = x ++ structFields ctys fs false := by
  induction ctys generalizing fs x with
  | nil => simp [joinComma, structFields]
  | cons cty ctys ih =>
    cases fs with
    | nil => simp [joinComma, structFields]
    | cons f fs =>
      simp only [List.zipWith_cons_cons, joinComma]
      rw [ih fs (structField cty f)]
      simp [structFields]

lemma structFields_true_eq_joinComma (ctys : List PGType) (fs : List PGVal) :
    structFields ctys fs true = joinComma (List.zipWith structField ctys fs) := by
  cases ctys with
  | nil => simp [joinComma, structFields]
  | cons cty ctys =>
    cases fs with
    | nil => simp [joinComma, structFields]
    | cons f fs =>
      rw [List.zipWith_cons_cons, joinComma_cons_structFields]
      simp [structFields]

lemma castSingle_strct_eq (ctys : List PGType) (fs : List PGVal) :
    castSingle (PGType.strct ctys) (PGVal.strct fs) = specCompositeLiteral ctys fs := by
  simp [castSingle, specCompositeLiteral, structFields_true_eq_joinComma]

/-- Claim C1: `CastListToPostgresArray` maps a null row to a null output row
and a non-null row of elements to `{` + elements joined by `,` + `}`; a null
element yields the unquoted token `NULL`; a non-null element is the
recursively cast child text through `QuoteAndEscapeIfNeeded`, except that a
child of list type is inserted verbatim; an empty list yields `{}`;
`[1, NULL, 3]` of integers yields `{1,NULL,3}` and `["a,b", NULL]` of
strings yields `{"a,b",NULL}`. -/
theorem castListToPostgresArray_spec (cty : PGType) (col : List (Option (List PGVal))) :
    CastListToPostgresArray cty (col.map listColRow) =
      col.map (Option.map (specArrayLiteral cty)) ∧
    specArrayLiteral cty [] = ['{', '}'] ∧
    listElem cty PGVal.null = ['N', 'U', 'L', 'L'] ∧
    (∀ s, listElem cty (PGVal.prim s) =
      if cty.isList then castSingle cty (PGVal.prim s)
      else QuoteAndEscapeIfNeeded (castSingle cty (PGVal.prim s))) ∧
    (∀ bs, listElem cty (PGVal.blob bs) =
      if cty.isList then castSingle cty (PGVal.blob bs)
      else QuoteAndEscapeIfNeeded (castSingle cty (PGVal.blob bs))) ∧
    (∀ es, listElem cty (PGVal.list es) =
      if cty.isList then castSingle cty (PGVal.list es)
      else QuoteAndEscapeIfNeeded (castSingle cty (PGVal.list es))) ∧
    (∀ fs, listElem cty (PGVal.strct fs) =
      if cty.isList then castSingle cty (PGVal.strct fs)
      else QuoteAndEscapeIfNeeded (castSingle cty (PGVal.strct fs))) ∧
    CastListToPostgresArray PGType.prim
        [PGVal.list [PGVal.prim "1".data, PGVal.null, PGVal.prim "3".data]] =
      [some "\x7b1,NULL,3\x7d".data] ∧
    CastListToPostgresArray PGType.prim
        [PGVal.list [PGVal.prim "a,b".data, PGVal.null]] =
      [some "\x7b\"a,b\",NULL\x7d".data] := by
  refine ⟨?_, ?_, by simp [listElem], by intro s; simp [listElem],
    by intro bs; simp [listElem], by intro es; simp [listElem],
    by intro fs; simp [listElem], ?_, ?_⟩
  · induction col with
    | nil => rfl
    | cons o rest ih =>
      cases o with
      | none =>
        simpa [CastListToPostgresArray, listColRow] using ih
      | some es =>
        simp only [List.map_cons, CastListToPostgresArray, listColRow, Option.map_some]
        simp only [CastListToPostgresArray] at ih
        rw [castSingle_list_eq]
        exact congrArg _ ih
  · simp [specArrayLiteral, joinComma]
  · simp [CastListToPostgresArray, castSingle_list_eq, specArrayLiteral, joinComma,
      listElem, castSingle, PGType.isList, QuoteAndEscapeIfNeeded, NeedsQuotes, isspace,
      isQuoteChar, EscapeQuotes]
  · simp [CastListToPostgresArray, castSingle_list_eq, specArrayLiteral, joinComma,
      listElem, castSingle, PGType.isList, QuoteAndEscapeIfNeeded, NeedsQuotes, isspace,
      isQuoteChar, EscapeQuotes]

/-- Claim C2: `CastStructToPostgres` maps a null row to a null output row and
a non-null row to `(` + fields joined by `,` + `)`; a null field contributes
an empty segment (never the token `NULL`); a non-null field is always passed
through `QuoteAndEscapeIfNeeded`; `{x: 1, y: NULL}` yields `(1,)`. -/
theorem castStructToPostgres_spec (cty : PGType) (ctys : List PGType)
    (col : List (Option (List PGVal))) :
    CastStructToPostgres ctys (col.map structColRow) =
      col.map (Option.map (specCompositeLiteral ctys)) ∧
    structField cty PGVal.null = [] ∧
    (∀ s, structField cty (PGVal.prim s) = QuoteAndEscapeIfNeeded (castSingle cty (PGVal.prim s))) ∧
    (∀ bs, structField cty (PGVal.blob bs) = QuoteAndEscapeIfNeeded (castSingle cty (PGVal.blob bs))) ∧
    (∀ es, structField cty (PGVal.list es) = QuoteAndEscapeIfNeeded (castSingle cty (PGVal.list es))) ∧
    (∀ fs, structField cty (PGVal.strct fs) = QuoteAndEscapeIfNeeded (castSingle cty (PGVal.strct fs))) ∧
    CastStructToPostgres [PGType.prim, PGType.prim]
        [PGVal.strct [PGVal.prim "1".data, PGVal.null]] =
      [some "(1,)".data] := by
  refine ⟨?_, by simp [structField], by intro s; simp [structField],
    by intro bs; simp [structField], by intro es; simp [structField],
    by intro fs; simp [structField], ?_⟩
  · induction col with
    | nil => rfl
    | cons o rest ih =>
      cases o with
      | none =>
        simpa [CastStructToPostgres, structColRow] using ih
      | some fs =>
        simp only [List.map_cons, CastStructToPostgres, structColRow, Option.map_some]
        simp only [CastStructToPostgres] at ih
        rw [castSingle_strct_eq]
        exact congrArg _ ih
  · simp [CastStructToPostgres, castSingle_strct_eq, specCompositeLiteral, joinComma,
      structField, castSingle, QuoteAndEscapeIfNeeded, NeedsQuotes, isspace,
      isQuoteChar, EscapeQuotes]

/-- Spec-side rendering of one blob byte: its two-hex-digit pair. -/
def specHexPair (b : Nat) : List Char :=
  [HEX_STRING.getD (b / 16) 'X', HEX_STRING.getD (b % 16) 'X']

lemma blobText_eq_join (bs : List Nat) :
    blobText bs = (bs.map specHexPair).flatten := by
  induction bs with
  | nil => simp [blobText]
  | cons b rest ih => simp [blobText, specHexPair, ih]

/-- Claim C5: `CastBlobToPostgres` maps a null row to a null output row and a
non-null row of bytes to exactly `\x` followed by one uppercase
two-hex-digit pair per byte in order, with nothing else applied to the
result; bytes `[0x0A, 0xFF]` yield `\x0AFF`. -/
theorem castBlobToPostgres_spec (col : List (Option (List Nat))) :
    CastBlobToPostgres (col.map blobColRow) =
      col.map (Option.map (fun bs => '\\' :: 'x' :: (bs.map specHexPair).flatten)) ∧
    HEX_STRING = "0123456789ABCDEF".data ∧
    HEX_STRING.all (fun c => c.isDigit || c.isUpper) = true ∧
    CastBlobToPostgres [PGVal.blob [10, 255]] = [some "\\x0AFF".data] := by
  refine ⟨?_, rfl, by decide, ?_⟩
  · induction col with
    | nil => rfl
    | cons o rest ih =>
      cases o with
      | none =>
        simpa [CastBlobToPostgres, blobColRow] using ih
      | some bs =>
        simp only [List.map_cons, CastBlobToPostgres, blobColRow, Option.map_some]
        simp only [CastBlobToPostgres] at ih
        rw [show castSingle PGType.blob (PGVal.blob bs) = '\\' :: 'x' :: blobText bs by
          simp [castSingle], blobText_eq_join]
        exact congrArg _ ih
  · simp [CastBlobToPostgres, castSingle, blobText, HEX_STRING]

lemma castSingle_prim_nil (cty : PGType) : castSingle cty (PGVal.prim []) = [] := by
  cases cty <;> simp [castSingle]

lemma structField_prim_nil (cty : PGType) : structField cty (PGVal.prim []) = ['"', '"'] := by
  simp [structField, castSingle_prim_nil, QuoteAndEscapeIfNeeded, NeedsQuotes, EscapeQuotes]

lemma structFields_set_length (ctys : List PGType) (fs : List PGVal) (c : Nat) (b : Bool)
    (h1 : c < ctys.length) (h2 : c < fs.length) :
    (structFields ctys (fs.set c (PGVal.prim [])) b).length =
      (structFields ctys (fs.set c PGVal.null) b).length + 2 := by
  induction ctys generalizing fs c b with
  | nil => simp at h1
  | cons cty ctys ih =>
    cases fs with
    | nil => simp at h2
    | cons f fs =>
      cases c with
      | zero =>
        simp [structFields, structField_prim_nil, structField]
        omega
      | succ c =>
        have h1' : c < ctys.length := by simpa using h1
        have h2' : c < fs.length := by simpa using h2
        simp only [List.set_cons_succ, structFields, List.length_append]
        rw [ih fs c false h1' h2']
        omega

/-- Claim C10: in a composite literal, a non-null field whose cast text is
empty is rendered as the two-character quoted segment `""` (because
`NeedsQuotes` holds of the empty string), while a null field is rendered as
the zero-character empty segment, so the two rows always produce different
literals. -/
theorem structField_empty_ne_null (cty : PGType) (ctys : List PGType) (fs : List PGVal)
    (c : Nat) (h1 : c < ctys.length) (h2 : c < fs.length) :
    QuoteAndEscapeIfNeeded [] = ['"', '"'] ∧
    structField cty (PGVal.prim []) = ['"', '"'] ∧
    structField cty PGVal.null = [] ∧
    castSingle (PGType.strct ctys) (PGVal.strct (fs.set c (PGVal.prim []))) ≠
      castSingle (PGType.strct ctys) (PGVal.strct (fs.set c PGVal.null)) := by
  refine ⟨by decide, structField_prim_nil cty, by simp [structField], ?_⟩
  intro heq
  have hlen := congrArg List.length heq
  simp only [castSingle, List.length_cons, List.length_append] at hlen
  rw [structFields_set_length ctys fs c true h1 h2] at hlen
  omega

/-- Witness for C10 at a one-field struct: `("")` versus `()`. -/
theorem structField_empty_ne_null_witness :
    QuoteAndEscapeIfNeeded [] = ['"', '"'] ∧
    structField PGType.prim (PGVal.prim []) = ['"', '"'] ∧
    structField PGType.prim PGVal.null = [] ∧
    castSingle (PGType.strct [PGType.prim]) (PGVal.strct ([PGVal.null].set 0 (PGVal.prim []))) ≠
      castSingle (PGType.strct [PGType.prim]) (PGVal.strct ([PGVal.null].set 0 PGVal.null)) :=
  structField_empty_ne_null PGType.prim [PGType.prim] [PGVal.null] 0 (by decide) (by decide)

/-! ### Copy session driver (src/postgres_copy_to.cpp:8-111) -/

/-- `PostgresCopyFormat`: the formats this unit handles. -/
inductive PostgresCopyFormat where
  | BINARY : PostgresCopyFormat
  | TEXT : PostgresCopyFormat
deriving DecidableEq

/-- libpq `ExecStatusType`, restricted to the statuses this unit inspects. -/
inductive ExecStatusType where
  | PGRES_COMMAND_OK : ExecStatusType
  | PGRES_COPY_IN : ExecStatusType
  | PGRES_FATAL_ERROR : ExecStatusType
deriving DecidableEq

/-- `PostgresConnection::CopyData(buffer, size)` (src/postgres_copy_to.cpp:71-79).
The trace argument is the sequence of result codes that successive
`PQputCopyData` calls return; the `do/while` loop retries while the code is
0, throws with the system error text when it is -1, and returns normally
otherwise. `none` models the (finite) trace being exhausted with the loop
still spinning; `errMsg` models `PQerrorMessage(GetConn())`. -/
def CopyData (errMsg : String) : List Int → Option (Except String Unit)
  | [] => none
  | r :: rest =>
    if r = 0 then CopyData errMsg rest
    else if r = -1 then some (Except.error ("Error during PQputCopyData: " ++ errMsg))
    else some (Except.ok ())

/-- Claim C7: `CopyData` silently retries on the transient zero result, errors
(surfacing the system error text) exactly when the first non-zero result is
the hard -1, and completes normally on the positive result. -/
theorem copyData_retry_spec (em : String) (n : Nat) (r : Int) (rest : List Int)
    (h : r = 1 ∨ r = -1) :
    CopyData em (List.replicate n 0 ++ r :: rest) =
      some (if r = -1 then Except.error ("Error during PQputCopyData: " ++ em)
            else Except.ok ()) ∧
    (∀ t, CopyData em ((0 : Int) :: t) = CopyData em t) := by
  constructor
  · induction n with
    | zero =>
      rcases h with h | h <;> subst h <;> simp [CopyData]
    | succ n ih =>
      simpa [CopyData, List.replicate_succ] using ih
  · intro t
    simp [CopyData]

/-- Witness for C7: two transient zero results, then a positive result. -/
theorem copyData_retry_spec_witness :
    ((1 : Int) = 1 ∨ (1 : Int) = -1) ∧
    (CopyData "e" (List.replicate 2 0 ++ (1 : Int) :: []) =
      some (if (1 : Int) = -1 then Except.error ("Error during PQputCopyData: " ++ "e")
            else Except.ok ()) ∧
    (∀ t, CopyData "e" ((0 : Int) :: t) = CopyData "e" t)) :=
  ⟨Or.inl rfl, copyData_retry_spec "e" 2 1 [] (Or.inl rfl)⟩

/-- The libpq connection outcomes `FinishCopyTo` consults: the trace of
`PQputCopyData` result codes for the footer transmission, the
`PQputCopyEnd` result code, the `PQgetResult` outcome (`none` models a null
`PGresult*`), and the error texts `PQerrorMessage` / `PQresultErrorMessage`
would return. -/
structure PQTrace where
  putCopyDataResults : List Int
  putCopyEndCode : Int
  getResult : Option ExecStatusType
  connErrorMessage : String
  resultErrorMessage : String

/-- `PostgresConnection::FinishCopyTo` (src/postgres_copy_to.cpp:89-111).
First the format-appropriate footer is written and transmitted (binary
footer for `BINARY`, text footer for `TEXT`; the footer bytes themselves
are produced by `PostgresBinaryWriter::WriteFooter` /
`PostgresTextWriter::WriteFooter`, which live outside this source file, so
they are taken as parameters); then `PQputCopyEnd` must return 1; then
`PQgetResult` must yield a non-null result with status `PGRES_COMMAND_OK`.
The first component of the result is the list of chunks handed to
`CopyData`; the second is the outcome (`none` again meaning an exhausted
retry trace). -/
def FinishCopyTo (format : PostgresCopyFormat) (binaryFooter textFooter : List Nat)
    (tr : PQTrace) : List (List Nat) × Option (Except String Unit) :=
  let footer :=
    match format with
    | PostgresCopyFormat.BINARY => binaryFooter
    | PostgresCopyFormat.TEXT => textFooter
  ([footer],
    match CopyData tr.connErrorMessage tr.putCopyDataResults with
    | none => none
    | some (Except.error e) => some (Except.error e)
    | some (Except.ok _) =>
      if tr.putCopyEndCode ≠ 1 then
        some (Except.error ("Error during PQputCopyEnd: " ++ tr.connErrorMessage))
      else
        match tr.getResult with
        | none => some (Except.error ("Failed to copy data: " ++ tr.resultErrorMessage))
        | some st =>
          if st ≠ ExecStatusType.PGRES_COMMAND_OK then
            some (Except.error ("Failed to copy data: " ++ tr.resultErrorMessage))
          else
            some (Except.ok ()))

/-- Claim C6: `FinishCopyTo` first transmits the format-appropriate footer
(binary footer for `BINARY`, text footer for `TEXT`); it succeeds iff the
footer transmission, the end-of-copy signal (`PQputCopyEnd` = 1) and the
final result fetch (`PGRES_COMMAND_OK`) all succeed; an end-signal failure
and a bad final result after a successful end-signal are both reported as
failures with the corresponding error text. -/
theorem finishCopyTo_spec (fmt : PostgresCopyFormat) (binF txtF : List Nat) (tr : PQTrace) :
    (FinishCopyTo PostgresCopyFormat.BINARY binF txtF tr).1 = [binF] ∧
    (FinishCopyTo PostgresCopyFormat.TEXT binF txtF tr).1 = [txtF] ∧
    ((FinishCopyTo fmt binF txtF tr).2 = some (Except.ok ()) ↔
      CopyData tr.connErrorMessage tr.putCopyDataResults = some (Except.ok ()) ∧
        tr.putCopyEndCode = 1 ∧ tr.getResult = some ExecStatusType.PGRES_COMMAND_OK) ∧
    (FinishCopyTo fmt binF txtF
        { tr with putCopyDataResults := [1], putCopyEndCode := 0 }).2 =
      some (Except.error ("Error during PQputCopyEnd: " ++ tr.connErrorMessage)) ∧
    (FinishCopyTo fmt binF txtF
        { tr with putCopyDataResults := [1], putCopyEndCode := 1,
                  getResult := some ExecStatusType.PGRES_FATAL_ERROR }).2 =
      some (Except.error ("Failed to copy data: " ++ tr.resultErrorMessage)) := by
  refine ⟨rfl, rfl, ?_, by simp [FinishCopyTo, CopyData], by simp [FinishCopyTo, CopyData]⟩
  cases hcd : CopyData tr.connErrorMessage tr.putCopyDataResults with
  | none => simp [FinishCopyTo, hcd]
  | some e =>
    cases e with
    | error msg => simp [FinishCopyTo, hcd]
    | ok u =>
      by_cases hend : tr.putCopyEndCode = 1
      · cases hres : tr.getResult with
        | none => simp [FinishCopyTo, hcd, hend, hres]
        | some st => cases st <;> simp [FinishCopyTo, hcd, hend, hres]
      · simp [FinishCopyTo, hcd, hend]

/-- The copy-session state this unit mutates (`postgres_copy_to.hpp` fields
used here: the format, and the optional NUL-byte replacement). -/
structure PostgresCopyState where
  format : PostgresCopyFormat
  has_null_byte_replacement : Bool
  null_byte_replacement : List Char

/-- `PostgresCopyState::Initialize` (src/postgres_copy_to.cpp:8-24). The
`setting` argument models `TryGetCurrentSetting("pg_null_byte_replacement")`:
`none` means the setting is absent (the call returns false), `some none` a
null value, `some (some s)` a string value `s`. A string containing a NUL
byte throws; otherwise the replacement is recorded. -/
def PostgresCopyState.Initialize (state : PostgresCopyState)
    (setting : Option (Option (List Char))) : Except String PostgresCopyState :=
  match setting with
  | none => Except.ok state
  | some none => Except.ok state
  | some (some replacement_str) =>
    if replacement_str.any (fun c => c = Char.ofNat 0) then
      Except.error "NULL byte replacement string cannot contain NULL values"
    else
      Except.ok { state with
        has_null_byte_replacement := true
        null_byte_replacement := replacement_str }

/-- Modelled from the spec: `KeywordHelper::WriteQuoted(s, '"')` is a DuckDB
helper outside this repository; per the spec, identifiers are
"double-quote-escaped". Each embedded quote character is doubled. -/
def escapeIdent : List Char → List Char
  | [] => []
  | c :: rest => (if c = '"' then ['"', '"'] else [c]) ++ escapeIdent rest

/-- Modelled from the spec: `KeywordHelper::WriteQuoted(s, '"')` — wrap the
identifier in double quotes (escaping embedded quotes). -/
def WriteQuoted (s : List Char) : List Char :=
  '"' :: (escapeIdent s ++ ['"'])

/-- The column-list loop of `BeginCopyTo` (src/postgres_copy_to.cpp:36-41):
`", "` before every column except the first, each column double-quote
escaped. -/
def columnListBody : List (List Char) → Bool → List Char
  | [], _ => []
  | col :: rest, first =>
    (if first then [] else [',', ' ']) ++ (WriteQuoted col ++ columnListBody rest false)

/-- The command text built by `PostgresConnection::BeginCopyTo`
(src/postgres_copy_to.cpp:29-57): `COPY `, the optional quoted schema
qualifier, the quoted table, the optional parenthesised column list,
`FROM STDIN `, the format clause (`BINARY`, or `TEXT (NULL '\b')` with the
backspace NULL-marker override), and the trailing `)` the code appends
after the switch. -/
def BuildCopyToQuery (schema_name table_name : List Char)
    (column_names : List (List Char)) (format : PostgresCopyFormat) : List Char :=
  let q1 := "COPY ".data
  let q2 := q1 ++ (if schema_name.isEmpty then [] else WriteQuoted schema_name ++ ['.'])
  let q3 := q2 ++ (WriteQuoted table_name ++ [' '])
  let q4 := q3 ++ (if column_names.isEmpty then []
    else '(' :: (columnListBody column_names true ++ [')', ' ']))
  let q5 := q4 ++ "FROM STDIN ".data
  let q6 := q5 ++ (match format with
    | PostgresCopyFormat.BINARY => "BINARY".data
    | PostgresCopyFormat.TEXT => "TEXT (NULL '\x08')".data)
  q6 ++ [')']

/-- `PostgresConnection::BeginCopyTo` (src/postgres_copy_to.cpp:26-69),
up to the binary-header transmission: the command text is built,
`state.Initialize` runs (and can throw) before the command is submitted,
`state.format` is set, and the submitted command must leave the server in
`PGRES_COPY_IN` state; any other `PQExecute` outcome throws with the
server's error text. `execResult` models the status of the `PQExecute`
result (`none` a null result). On success the executed command text and the
updated state are returned. -/
def BeginCopyTo (state : PostgresCopyState) (setting : Option (Option (List Char)))
    (format : PostgresCopyFormat) (schema_name table_name : List Char)
    (column_names : List (List Char)) (execResult : Option ExecStatusType)
    (resultErrorMessage : String) : Except String (List Char × PostgresCopyState) :=
  match state.Initialize setting with
  | Except.error e => Except.error e
  | Except.ok st =>
    let st' := { st with format := format }
    let query := BuildCopyToQuery schema_name table_name column_names format
    match execResult with
    | some ExecStatusType.PGRES_COPY_IN => Except.ok (query, st')
    | _ =>
      Except.error ("Failed to prepare COPY \"" ++ String.mk query ++ "\": " ++
        resultErrorMessage)

/-- Claim C8: `Initialize` throws iff the `pg_null_byte_replacement` setting
is present, non-null, and contains a NUL byte (with the configuration error
text); an absent or null setting leaves the state unchanged; a valid
setting is recorded in the state; and a rejected configuration makes
`BeginCopyTo` fail with that same error, before any command is submitted
(whatever the server would have answered). -/
theorem initialize_spec (st : PostgresCopyState) (setting : Option (Option (List Char)))
    (fmt : PostgresCopyFormat) (schema table : List Char) (cols : List (List Char))
    (execResult : Option ExecStatusType) (rem : String) :
    ((∃ e, st.Initialize setting = Except.error e) ↔
      ∃ s, setting = some (some s) ∧ Char.ofNat 0 ∈ s) ∧
    (∀ s, setting = some (some s) → Char.ofNat 0 ∈ s →
      st.Initialize setting =
        Except.error "NULL byte replacement string cannot contain NULL values") ∧
    st.Initialize none = Except.ok st ∧
    st.Initialize (some none) = Except.ok st ∧
    (∀ s, setting = some (some s) → ¬ Char.ofNat 0 ∈ s →
      st.Initialize setting = Except.ok { st with
        has_null_byte_replacement := true
        null_byte_replacement := s }) ∧
    (∀ e, st.Initialize setting = Except.error e →
      BeginCopyTo st setting fmt schema table cols execResult rem = Except.error e) := by
  refine ⟨?_, ?_, rfl, rfl, ?_, ?_⟩
  · constructor
    · rintro ⟨e, he⟩
      match setting with
      | none => simp [PostgresCopyState.Initialize] at he
      | some none => simp [PostgresCopyState.Initialize] at he
      | some (some s) =>
        refine ⟨s, rfl, ?_⟩
        by_cases hn : s.any (fun c => c = Char.ofNat 0)
        · simpa [List.any_eq_true] using hn
        · simp [PostgresCopyState.Initialize, hn] at he
    · rintro ⟨s, hs, hn⟩
      subst hs
      have : s.any (fun c => c = Char.ofNat 0) = true := by
        simp [List.any_eq_true]
        exact hn
      exact ⟨"NULL byte replacement string cannot contain NULL values",
        by simp [PostgresCopyState.Initialize, this]⟩
  · rintro s rfl hn
    have : s.any (fun c => c = Char.ofNat 0) = true := by
      simp [List.any_eq_true]
      exact hn
    simp [PostgresCopyState.Initialize, this]
  · rintro s rfl hn
    have : s.any (fun c => c = Char.ofNat 0) = false := by
      simp [List.any_eq_false]
      intro c hc
      intro hcc
      exact hn (hcc ▸ hc)
    simp [PostgresCopyState.Initialize, this]
  · intro e he
    simp [BeginCopyTo, he]

/-- Witness for C8 (for its nested hypotheses): a replacement string holding
a NUL byte is rejected, `"\0"`-free text is recorded, and the rejection
propagates out of `BeginCopyTo` unchanged. -/
theorem initialize_spec_witness :
    (⟨PostgresCopyFormat.TEXT, false, []⟩ : PostgresCopyState).Initialize
        (some (some [Char.ofNat 0])) =
      Except.error "NULL byte replacement string cannot contain NULL values" ∧
    BeginCopyTo ⟨PostgresCopyFormat.TEXT, false, []⟩ (some (some [Char.ofNat 0]))
        PostgresCopyFormat.TEXT [] "t".data [] (some ExecStatusType.PGRES_COPY_IN) "" =
      Except.error "NULL byte replacement string cannot contain NULL values" := by
  have h := initialize_spec ⟨PostgresCopyFormat.TEXT, false, []⟩
    (some (some [Char.ofNat 0])) PostgresCopyFormat.TEXT [] "t".data []
    (some ExecStatusType.PGRES_COPY_IN) ""
  have herr := h.2.1 [Char.ofNat 0] rfl (by decide)
  exact ⟨herr, h.2.2.2.2.2 _ herr⟩

/-- Spec-side join of the column list: pieces joined by `, `. -/
def joinCommaSpace : List (List Char) → List Char
  | [] => []
  | [x] => x
  | x :: y :: xs => x ++ (',' :: ' ' :: joinCommaSpace (y :: xs))

lemma joinCommaSpace_cons_columnListBody (cols : List (List Char)) (x : List Char) :
    joinCommaSpace (x :: cols.map WriteQuoted) = x ++ columnListBody cols false := by
  induction cols generalizing x with
  | nil => simp [joinCommaSpace, columnListBody]
  | cons col rest ih =>
    simp only [List.map_cons, joinCommaSpace]
    rw [ih (WriteQuoted col)]
    simp [columnListBody]

lemma columnListBody_true_eq (cols : List (List Char)) :
    columnListBody cols true = joinCommaSpace (cols.map WriteQuoted) := by
  cases cols with
  | nil => simp [joinCommaSpace, columnListBody]
  | cons col rest =>
    rw [List.map_cons, joinCommaSpace_cons_columnListBody]
    simp [columnListBody]

/-- Claim C9: the command text `BeginCopyTo` builds is exactly
`COPY [<schema>.]<table> [(<col1>, <col2>, ...)] FROM STDIN BINARY)` for
binary format and `COPY ... FROM STDIN TEXT (NULL '<backspace>'))` for text
format: the schema qualifier appears only for a non-empty schema, the
column list only when column names were given, every identifier is
double-quote-escaped, and the NULL-marker override is literally part of the
text-mode format clause. -/
theorem beginCopyTo_command_text (schema table : List Char) (cols : List (List Char)) :
    BuildCopyToQuery schema table cols PostgresCopyFormat.BINARY =
      "COPY ".data ++
        (if schema = [] then [] else WriteQuoted schema ++ ['.']) ++
        WriteQuoted table ++ [' '] ++
        (if cols = [] then []
         else '(' :: (joinCommaSpace (cols.map WriteQuoted) ++ [')', ' '])) ++
        "FROM STDIN ".data ++ "BINARY".data ++ [')'] ∧
    BuildCopyToQuery schema table cols PostgresCopyFormat.TEXT =
      "COPY ".data ++
        (if schema = [] then [] else WriteQuoted schema ++ ['.']) ++
        WriteQuoted table ++ [' '] ++
        (if cols = [] then []
         else '(' :: (joinCommaSpace (cols.map WriteQuoted) ++ [')', ' '])) ++
        "FROM STDIN ".data ++ "TEXT (NULL '\x08')".data ++ [')'] ∧
    BuildCopyToQuery "s".data "t".data ["a".data, "b".data] PostgresCopyFormat.TEXT =
      "COPY \"s\".\"t\" (\"a\", \"b\") FROM STDIN TEXT (NULL '\x08'))".data := by
  refine ⟨?_, ?_, by decide⟩ <;>
  · by_cases hs : schema = [] <;> cases cols <;>
      simp [BuildCopyToQuery, hs, columnListBody_true_eq, List.append_assoc]

end DwsScanner
